import Mathlib

/-!
# Shallow embedding of the basebot signal pipeline

This file embeds the core of the `basebot` repository in Lean 4 and proves
properties of its data model and operations.  Times and USD amounts are
modelled as rationals (`ℚ`); Python floats are treated as exact rationals.
Python dictionaries are modelled as insertion-ordered association lists and
Python sets as duplicate-free lists.  Asynchronous I/O outcomes (RPC
success, RPC error, timeout) are modelled as explicit sum types fed to the
otherwise-pure translations of the handlers.
-/

namespace Basebot

/- ### Python string helpers (ASCII semantics of str.lower / str.upper /
   str.startswith, which is all the source applies them to) -/

def pyLower (s : String) : String := ⟨s.data.map Char.toLower⟩

def pyUpper (s : String) : String := ⟨s.data.map Char.toUpper⟩

def pyStartsWith (s pre : String) : Bool := pre.data.isPrefixOf s.data

/- ### Association-list helpers modelling Python dicts (insertion order) -/

def alookup {α : Type} (m : List (String × α)) (k : String) : Option α :=
  match m with
  | [] => none
  | (k', v) :: r => if k' = k then some v else alookup r k

def aset {α : Type} (m : List (String × α)) (k : String) (v : α) :
    List (String × α) :=
  match m with
  | [] => [(k, v)]
  | (k', v') :: r => if k' = k then (k, v) :: r else (k', v') :: aset r k v

def aerase {α : Type} (m : List (String × α)) (k : String) :
    List (String × α) :=
  match m with
  | [] => []
  | (k', v') :: r => if k' = k then r else (k', v') :: aerase r k

/-- Python set.add : append if absent. -/
def setInsert (l : List String) (x : String) : List String :=
  if x ∈ l then l else l ++ [x]

/-- Python truthy-or on an optional number (`x or y`): falls through on
`None` and on `0`. -/
def pyOptOr (a b : Option ℚ) : Option ℚ :=
  match a with
  | some x => if x = 0 then b else some x
  | none => b

/-- Python `x or y` where `x : Option ℚ` and `y : ℚ` (e.g. `... or 0`). -/
def pyNumOr (a : Option ℚ) (b : ℚ) : ℚ :=
  match a with
  | some x => if x = 0 then b else x
  | none => b

/- ### config.py defaults (signal thresholds and anti-spam knobs) -/

structure Config where
  MAX_TOKEN_AGE_SECONDS : ℚ := 180
  SOL_MAX_TOKEN_AGE_SECONDS : ℚ := 120
  MAX_MCAP_USD : ℚ := 30000
  MIN_LIQUIDITY_USD : ℚ := 3000
  MIN_BUYS : ℕ := 2
  MIN_LARGEST_BUY_PCT : ℚ := 10
  MAX_SIGNALS_PER_HOUR : ℕ := 5
  MAX_DEPLOYER_TOKENS_24H : ℕ := 2
  MAX_SIGNAL_LATENCY_SECONDS : ℚ := 0
  WHALE_ALERT_MIN_USD : ℚ := 500
deriving Repr, DecidableEq

/- ### base/state.py : TokenState

The dataclass fields of `TokenState`, plus the enrichment-identity
attributes (`token_name`, `token_symbol`, `pair_created_at`, `has_socials`,
`is_copycat`) that `dexscreener.py` sets dynamically on the same object and
`signal_engine.py` reads.  They default to falsy values here, matching a
never-enriched token. -/

structure TokenState where
  token_address : String
  pair_address : String
  first_seen : ℚ
  dex_version : String
  liquidity_usd : ℚ := 0
  estimated_mcap : ℚ := 0
  total_buys : ℕ := 0
  total_sells : ℕ := 0
  buy_volume_usd : ℚ := 0
  largest_buy_usd : ℚ := 0
  unique_buyers : List String := []
  deployer_address : String := ""
  hooks_address : String := "0x0000000000000000000000000000000000000000"
  sqrt_price_x96 : ℕ := 0
  ds_mcap : Option ℚ := none
  ds_liquidity_usd : Option ℚ := none
  ds_buys_m5 : Option ℕ := none
  ds_sells_m5 : Option ℕ := none
  ds_volume_m5 : Option ℚ := none
  ds_last_fetch : ℚ := 0
  bytecode_safe : Option Bool := none
  is_honeypot : Option Bool := none
  signaled : Bool := false
  signal_time : ℚ := 0
  recent_buy_times : List ℚ := []
  token_name : String := ""
  token_symbol : String := ""
  pair_created_at : ℚ := 0
  has_socials : Bool := false
  is_copycat : Bool := false
deriving Repr, DecidableEq

/-- The `age_seconds` property, with the wall clock passed explicitly. -/
def TokenState.age_seconds (s : TokenState) (now : ℚ) : ℚ :=
  now - s.first_seen

/-- Property `best_mcap`: DexScreener mcap if present and positive, else the
on-chain estimate. -/
def TokenState.best_mcap (s : TokenState) : ℚ :=
  match s.ds_mcap with
  | some m => if m > 0 then m else s.estimated_mcap
  | none => s.estimated_mcap

/-- Property `best_liquidity`: DexScreener liquidity if present and positive, else
the on-chain estimate. -/
def TokenState.best_liquidity (s : TokenState) : ℚ :=
  match s.ds_liquidity_usd with
  | some l => if l > 0 then l else s.liquidity_usd
  | none => s.liquidity_usd

/-- Property `best_buys`: max of on-chain buys and DexScreener 5-minute buys when
the latter is known. -/
def TokenState.best_buys (s : TokenState) : ℕ :=
  match s.ds_buys_m5 with
  | some b => max s.total_buys b
  | none => s.total_buys

/-- Method `has_momentum` (0.20 is modelled as the exact rational 20/100). -/
def TokenState.has_momentum (s : TokenState) (now : ℚ) : Bool :=
  if (s.recent_buy_times.filter (fun t => decide (now - t ≤ 30))).length ≥ 2
  then true
  else if s.best_liquidity > 0 ∧
      s.buy_volume_usd ≥ s.best_liquidity * (20 / 100) then true
  else if s.total_buys > s.unique_buyers.length ∧ s.total_buys ≥ 2 then true
  else false

/- ### base/state.py : TokenStateTracker (dict with TTL eviction) -/

abbrev DeployerHistory := List (String × List (String × ℚ))

structure TokenStateTracker where
  states : List (String × TokenState) := []
  max_age : ℚ := 300
  deployer_history : DeployerHistory := []
deriving Repr, DecidableEq

/-- Operation `record_deployer` on the side index: idempotent per (deployer, token),
prunes entries older than 24 h, returns the new index and the count. -/
def record_deployer (hist : DeployerHistory) (deployer token : String)
    (now : ℚ) : DeployerHistory × ℕ :=
  let addr := pyLower deployer
  let entry := (alookup hist addr).getD []
  let entry :=
    if alookup entry token = none then entry ++ [(token, now)] else entry
  let pruned := entry.filter (fun p => decide (now - 86400 < p.2))
  (aset hist addr pruned, pruned.length)

/-- Operation `get`: returns `none` if absent or expired; an expired entry is deleted
as a side effect (the returned tracker reflects the deletion). -/
def TokenStateTracker.get (tr : TokenStateTracker) (token : String)
    (now : ℚ) : Option TokenState × TokenStateTracker :=
  let addr := pyLower token
  match alookup tr.states addr with
  | none => (none, tr)
  | some st =>
    if now - st.first_seen > tr.max_age then
      (none, { tr with states := aerase tr.states addr })
    else (some st, tr)

/-- Operation `create`: idempotent (returns the existing state if present). -/
def TokenStateTracker.create (tr : TokenStateTracker)
    (token pair dexv hooks : String) (sqrtP : ℕ) (deployer : String)
    (now : ℚ) : TokenState × TokenStateTracker :=
  let addr := pyLower token
  match alookup tr.states addr with
  | some st => (st, tr)
  | none =>
    let st : TokenState :=
      { token_address := addr, pair_address := pair, first_seen := now,
        dex_version := dexv, hooks_address := hooks,
        sqrt_price_x96 := sqrtP,
        deployer_address := if deployer = "" then "" else pyLower deployer }
    (st, { tr with states := tr.states ++ [(addr, st)] })

/-- The in-place state mutation performed by `record_buy`: bump counters,
append the buy timestamp and trim the rolling list to the last 60 s. -/
def recordBuyState (s : TokenState) (buyer : String) (usd now : ℚ) :
    TokenState :=
  { s with
    total_buys := s.total_buys + 1,
    buy_volume_usd := s.buy_volume_usd + usd,
    largest_buy_usd := max s.largest_buy_usd usd,
    unique_buyers := setInsert s.unique_buyers (pyLower buyer),
    recent_buy_times :=
      (s.recent_buy_times ++ [now]).filter (fun t => decide (now - 60 < t)) }

/-- Operation `record_buy`: no-op returning `none` when the token is absent or
expired; otherwise mutates the stored state. -/
def TokenStateTracker.record_buy (tr : TokenStateTracker)
    (token buyer : String) (usd now : ℚ) :
    Option TokenState × TokenStateTracker :=
  match tr.get token now with
  | (none, tr') => (none, tr')
  | (some st, tr') =>
    let st' := recordBuyState st buyer usd now
    (some st', { tr' with states := aset tr'.states (pyLower token) st' })

/-- Operation `record_sell`: increments the sell counter when present. -/
def TokenStateTracker.record_sell (tr : TokenStateTracker) (token : String)
    (now : ℚ) : Option TokenState × TokenStateTracker :=
  match tr.get token now with
  | (none, tr') => (none, tr')
  | (some st, tr') =>
    let st' := { st with total_sells := st.total_sells + 1 }
    (some st', { tr' with states := aset tr'.states (pyLower token) st' })

/- ### signal_engine.py : SignalEngine -/

structure SignalEngine where
  signal_queue : List String := []
  signal_timestamps : List ℚ := []
  total_evaluated : ℕ := 0
  total_signaled : ℕ := 0
  total_rejected : ℕ := 0
  reject_reasons : List (String × ℕ) := []
  signal_latencies : List ℚ := []
  latency_buckets : List (String × ℕ) :=
    [("0-15s", 0), ("15-30s", 0), ("30-60s", 0),
     ("60-90s", 0), ("90-120s", 0), ("120s+", 0)]
deriving Repr, DecidableEq

/-- Helper `_reject`: bump the per-reason counter and the total. -/
def SignalEngine.rejectTally (eng : SignalEngine) (reason : String) :
    SignalEngine :=
  { eng with
    reject_reasons :=
      aset eng.reject_reasons reason
        ((alookup eng.reject_reasons reason).getD 0 + 1),
    total_rejected := eng.total_rejected + 1 }

/-- Helper `_bucket_latency`: histogram bucket label for a latency. -/
def bucketLabel (lat : ℚ) : String :=
  if lat < 15 then "0-15s"
  else if lat < 30 then "15-30s"
  else if lat < 60 then "30-60s"
  else if lat < 90 then "60-90s"
  else if lat < 120 then "90-120s"
  else "120s+"

def bumpBucket (b : List (String × ℕ)) (lat : ℚ) : List (String × ℕ) :=
  let k := bucketLabel lat
  aset b k ((alookup b k).getD 0 + 1)

def rTooOld : String := "too_old"
def rMcapHigh : String := "mcap_high"
def rWeakBuy : String := "weak_buy"
def rRateLimited : String := "rate_limited"
def rDeployerSpam : String := "deployer_spam"
def rUnsafeBytecode : String := "unsafe_bytecode"
def rCopycat : String := "copycat"
def rNoSells : String := "no_sells"
def rTooSlow : String := "too_slow"

def solTag : String := "solana"

/-- Gate 5 quantity: largest single buy as a percentage of liquidity
(0 when liquidity is 0). -/
def largestBuyPct (s : TokenState) : ℚ :=
  if s.best_liquidity > 0 then s.largest_buy_usd / s.best_liquidity * 100
  else 0

/-- DexScreener honeypot proxy: more than 5 buys and exactly 0 sells in the
last 5 minutes (only when both figures are known). -/
def honeypotSuspect (s : TokenState) : Bool :=
  match s.ds_sells_m5, s.ds_buys_m5 with
  | some sells, some buys => decide (buys > 5) && decide (sells = 0)
  | _, _ => false

structure EvalResult where
  fired : Bool
  state : TokenState
  engine : SignalEngine
  hist : DeployerHistory
deriving Repr, DecidableEq

/-- The tail of `SignalEngine.evaluate` after the rate-limit and deployer
gates: bytecode safety, copycat, honeypot proxy, latency cut-off, then the
fire step.  `eng` already holds the pruned timestamp list. -/
def evaluateRest (cfg : Config) (eng : SignalEngine) (hist : DeployerHistory)
    (s : TokenState) (now : ℚ) : EvalResult :=
  if s.bytecode_safe = some false then
    ⟨false, s, eng.rejectTally rUnsafeBytecode, hist⟩
  else if s.is_copycat = true then
    ⟨false, s, eng.rejectTally rCopycat, hist⟩
  else if honeypotSuspect s then
    ⟨false, s, eng.rejectTally rNoSells, hist⟩
  else if cfg.MAX_SIGNAL_LATENCY_SECONDS > 0 ∧
      now - s.first_seen > cfg.MAX_SIGNAL_LATENCY_SECONDS then
    ⟨false, s, eng.rejectTally rTooSlow, hist⟩
  else
    ⟨true,
     { s with signaled := true, signal_time := now },
     { eng with
       signal_timestamps := eng.signal_timestamps ++ [now],
       total_signaled := eng.total_signaled + 1,
       signal_latencies := eng.signal_latencies ++ [now - s.first_seen],
       latency_buckets := bumpBucket eng.latency_buckets (now - s.first_seen),
       signal_queue := eng.signal_queue ++ [s.token_address] },
     hist⟩

/-- The `self.total_evaluated += 1` step at the top of evaluate. -/
def bumpEval (eng : SignalEngine) : SignalEngine :=
  { eng with total_evaluated := eng.total_evaluated + 1 }

/-- The anti-spam prune: keep only timestamps in the trailing hour. -/
def pruneHour (ts : List ℚ) (now : ℚ) : List ℚ :=
  ts.filter (fun t => decide (now - t < 3600))

/-- Store the pruned list back into `_signal_timestamps`. -/
def withPruned (eng : SignalEngine) (now : ℚ) : SignalEngine :=
  { eng with signal_timestamps := pruneHour eng.signal_timestamps now }

/-- Function `SignalEngine.evaluate` (signal_engine.py lines 44-184).  The engine
fields are threaded explicitly; `hist` is the deployer side-index of the
tracker the engine consults (`record_deployer` is the only tracker access).
Local Python variables (age, mcap, liquidity, buys, pruned timestamps,
deployer count) are inlined. -/
def evaluate (cfg : Config) (eng0 : SignalEngine) (hist : DeployerHistory)
    (s : TokenState) (now : ℚ) : EvalResult :=
  if s.signaled then ⟨false, s, bumpEval eng0, hist⟩
  else if now - s.first_seen >
      (if pyStartsWith s.dex_version solTag then cfg.SOL_MAX_TOKEN_AGE_SECONDS
       else cfg.MAX_TOKEN_AGE_SECONDS) then
    ⟨false, s, (bumpEval eng0).rejectTally rTooOld, hist⟩
  else if s.best_mcap > cfg.MAX_MCAP_USD ∧ s.best_mcap > 0 then
    ⟨false, s, (bumpEval eng0).rejectTally rMcapHigh, hist⟩
  else if s.best_liquidity < cfg.MIN_LIQUIDITY_USD then
    ⟨false, s, bumpEval eng0, hist⟩
  else if s.best_buys < cfg.MIN_BUYS then
    ⟨false, s, bumpEval eng0, hist⟩
  else if largestBuyPct s < cfg.MIN_LARGEST_BUY_PCT then
    ⟨false, s, (bumpEval eng0).rejectTally rWeakBuy, hist⟩
  else if (pruneHour eng0.signal_timestamps now).length ≥
      cfg.MAX_SIGNALS_PER_HOUR then
    ⟨false, s, (withPruned (bumpEval eng0) now).rejectTally rRateLimited, hist⟩
  else if s.deployer_address ≠ "" then
    if (record_deployer hist s.deployer_address s.token_address now).2 >
        cfg.MAX_DEPLOYER_TOKENS_24H then
      ⟨false, s, (withPruned (bumpEval eng0) now).rejectTally rDeployerSpam,
       (record_deployer hist s.deployer_address s.token_address now).1⟩
    else
      evaluateRest cfg (withPruned (bumpEval eng0) now)
        (record_deployer hist s.deployer_address s.token_address now).1 s now
  else evaluateRest cfg (withPruned (bumpEval eng0) now) hist s now

/- ### solana/state.py : SolTokenState (only the safety-relevant part
differs from the EVM state; authorities use the literal string sentinel
"unchecked" exactly as the source does) -/

def uncheckedTag : String := "unchecked"

structure SolTokenState where
  token_address : String
  pair_address : String
  first_seen : ℚ
  dex_version : String := "solana-raydium"
  liquidity_sol : ℚ := 0
  liquidity_usd : ℚ := 0
  estimated_mcap : ℚ := 0
  total_buys : ℕ := 0
  total_sells : ℕ := 0
  buy_volume_usd : ℚ := 0
  largest_buy_usd : ℚ := 0
  unique_buyers : List String := []
  deployer_address : String := ""
  mint_authority : Option String := some uncheckedTag
  freeze_authority : Option String := some uncheckedTag
  bytecode_safe : Option Bool := none
  is_honeypot : Option Bool := none
  ds_mcap : Option ℚ := none
  ds_liquidity_usd : Option ℚ := none
  ds_buys_m5 : Option ℕ := none
  ds_sells_m5 : Option ℕ := none
  ds_volume_m5 : Option ℚ := none
  ds_last_fetch : ℚ := 0
  signaled : Bool := false
  signal_time : ℚ := 0
  recent_buy_times : List ℚ := []
deriving Repr, DecidableEq

/-- Method `SolTokenState.update_safety`: map mint/freeze authority status to the
tri-state `bytecode_safe`. -/
def SolTokenState.update_safety (s : SolTokenState) : SolTokenState :=
  if s.mint_authority = some uncheckedTag ∨
      s.freeze_authority = some uncheckedTag then
    { s with bytecode_safe := none }
  else if s.mint_authority = none ∧ s.freeze_authority = none then
    { s with bytecode_safe := some true }
  else
    { s with bytecode_safe := some false }

/- ### solana/safety.py : SolSafetyChecker.check_mint / run_sol_safety_check -/

/-- Parsed SPL mint account info (`value.data.parsed.info`). -/
structure SolMintInfo where
  mintAuthority : Option String := none
  freezeAuthority : Option String := none
  supply : ℕ := 0
  decimals : ℕ := 0
deriving Repr, DecidableEq

/-- Outcome of the `getAccountInfo` RPC call inside `check_mint`: either a
response (whose `value` may be null = account not found) or an exception
caught by the `except` clause. -/
inductive SolRpcOutcome where
  | ok (value : Option SolMintInfo)
  | rpcError
deriving Repr, DecidableEq

/-- The view of `check_mint`'s returned dict through `dict.get`, which in
Python yields `None` both for an absent key and for a stored `None`: the
"Account not found" and "RPC error" dicts carry no authority keys, so both
getters read as `None` there. -/
structure CheckMintResult where
  safe : Option Bool
  mint_authority : Option String
  freeze_authority : Option String
deriving Repr, DecidableEq

def check_mint : SolRpcOutcome → CheckMintResult
  | .rpcError =>
    { safe := none, mint_authority := none, freeze_authority := none }
  | .ok none =>
    { safe := some false, mint_authority := none, freeze_authority := none }
  | .ok (some info) =>
    { safe := some (decide (info.mintAuthority = none ∧
                            info.freezeAuthority = none)),
      mint_authority := info.mintAuthority,
      freeze_authority := info.freezeAuthority }

/-- Outcome of the awaited probe in `run_sol_safety_check`: the inner call
completed (it catches its own exceptions), or the 10 s `wait_for` expired,
or some other exception escaped. -/
inductive SolProbe where
  | completed (outcome : SolRpcOutcome)
  | timeout
  | otherError
deriving Repr, DecidableEq

/-- Function `run_sol_safety_check`: writes `mint_authority`, `freeze_authority` and
recomputes `bytecode_safe` via `update_safety`; on timeout or an escaped
exception sets `bytecode_safe = None`. -/
def run_sol_safety_check (probe : SolProbe) (s : SolTokenState) :
    SolTokenState :=
  match probe with
  | .completed outcome =>
    let r := check_mint outcome
    ({ s with mint_authority := r.mint_authority,
              freeze_authority := r.freeze_authority }).update_safety
  | .timeout => { s with bytecode_safe := none }
  | .otherError => { s with bytecode_safe := none }

/- ### base/safety.py : SafetyChecker.check_token / run_safety_check -/

/-- Character-list helpers for the hex-substring scan. -/
def seqStarts : List Char → List Char → Bool
  | [], _ => true
  | _ :: _, [] => false
  | a :: as, b :: bs => a = b && seqStarts as bs

def seqHas (needle : List Char) : List Char → Bool
  | [] => needle.isEmpty
  | c :: rest => seqStarts needle (c :: rest) || seqHas needle rest

def hexHas (hay needle : String) : Bool := seqHas needle.data hay.data

def selMint : String := "40c10f19"
def selBlacklistA : String := "44df8e70"
def selBlacklistB : String := "e47d6060"
def selSetTax : String := "3950935e"
def selSetMaxTx : String := "0e83672a"
def selOpenTrading : String := "c9567bf9"
def selOwner : String := "8da5cb5b"
def selRenounce : String := "715018a6"
def selTransferOwn : String := "f2fde38b"
def proxyPatternA : String := "363d3d373d3d3d363d"
def proxyPatternB : String := "5f5f5f5f5f365f5f"

structure SafetyResult where
  safe : Bool := true
  has_mint : Bool := false
  has_blacklist : Bool := false
  has_tax : Bool := false
  is_proxy : Bool := false
  bytecode_size : ℕ := 0
  reasons : List String := []
deriving Repr, DecidableEq

/-- Outcome of the `eth_getCode` fetch inside `check_token`: the bytecode
(given by its hex string; the byte length is half the hex length) or an
exception caught by the `except` clause. -/
inductive EvmFetchOutcome where
  | code (codeHex : String)
  | fetchError
deriving Repr, DecidableEq

/-- Function `SafetyChecker.check_token`: note that a failed fetch yields
`safe = False`, not unknown — the exception is caught inside this function
and handled before the timeout wrapper can see it. -/
def check_token : EvmFetchOutcome → SafetyResult
  | .fetchError =>
    { safe := false, reasons := ["Failed to fetch bytecode"] }
  | .code codeHex =>
    if codeHex.data.length = 0 then
      { safe := false, reasons := ["No bytecode - not a contract"] }
    else
      let size := codeHex.data.length / 2
      let r0 : SafetyResult := { bytecode_size := size }
      -- DANGEROUS_SELECTORS in dict order (the last two selectors match no
      -- branch of the if/elif chain and contribute nothing)
      let (r1, c1) :=
        if hexHas codeHex selMint then
          ({ r0 with has_mint := true,
                     reasons := r0.reasons ++ ["Has mint() function"] }, 1)
        else (r0, 0)
      let (r2, c2) :=
        if hexHas codeHex selBlacklistA then
          ({ r1 with has_blacklist := true,
                     reasons := r1.reasons ++ ["Has blacklist functionality"] },
           c1 + 1)
        else (r1, c1)
      let (r3, c3) :=
        if hexHas codeHex selBlacklistB then
          ({ r2 with has_blacklist := true,
                     reasons := r2.reasons ++ ["Has blacklist functionality"] },
           c2 + 1)
        else (r2, c2)
      let (r4, w4) :=
        if hexHas codeHex selSetTax then
          ({ r3 with has_tax := true,
                     reasons := r3.reasons ++ ["Has setTax - owner can change fees"] },
           1)
        else (r3, 0)
      let (r5, w5) :=
        if hexHas codeHex selSetMaxTx then
          ({ r4 with reasons := r4.reasons ++ ["Has setMaxTxAmount - trading limits"] },
           w4 + 1)
        else (r4, w4)
      let (r6, w6) :=
        if hexHas codeHex selOpenTrading then
          ({ r5 with reasons := r5.reasons ++ ["Has openTrading - launch control"] },
           w5 + 1)
        else (r5, w5)
      -- CONTEXT_SELECTORS: each hit adds one warning
      let w7 := w6 + (if hexHas codeHex selOwner then 1 else 0)
      let w8 := w7 + (if hexHas codeHex selRenounce then 1 else 0)
      let w9 := w8 + (if hexHas codeHex selTransferOwn then 1 else 0)
      -- PROXY_PATTERNS: first hit flags and breaks
      let (r7, w10) :=
        if hexHas codeHex proxyPatternA || hexHas codeHex proxyPatternB then
          ({ r6 with is_proxy := true,
                     reasons := r6.reasons ++ ["Proxy contract - implementation can change"] },
           w9 + 1)
        else (r6, w9)
      let (r8, w11) :=
        if size < 500 then
          ({ r7 with reasons := r7.reasons ++ ["Very small bytecode - possibly proxy or minimal"] },
           w10 + 1)
        else (r7, w10)
      if c3 ≥ 2 then { r8 with safe := false }
      else if c3 = 1 ∧ w11 ≥ 2 then { r8 with safe := false }
      else r8

/-- Outcome of the awaited probe in `run_safety_check`. -/
inductive EvmProbe where
  | completed (fetch : EvmFetchOutcome)
  | timeout
  | otherError
deriving Repr, DecidableEq

/-- Function `run_safety_check`: stores the boolean verdict of `check_token`;
only a timeout or an exception escaping `check_token` leaves the verdict
unknown (`None`). -/
def run_safety_check (probe : EvmProbe) (s : TokenState) : TokenState :=
  match probe with
  | .completed fetch => { s with bytecode_safe := some (check_token fetch).safe }
  | .timeout => { s with bytecode_safe := none }
  | .otherError => { s with bytecode_safe := none }

/- ### dexscreener.py : pair records, enrichment and the copycat check -/

/-- A DexScreener pair record, reduced to the fields the source reads.
Optional fields model absent JSON keys / null values; `hasSocialsInfo`
models `bool(info.get("socials") or info.get("websites"))`. -/
structure DsPair where
  baseAddress : String := ""
  baseSymbol : String := ""
  baseName : String := ""
  liquidityUsd : Option ℚ := none
  marketCap : Option ℚ := none
  fdv : Option ℚ := none
  buysM5 : Option ℕ := none
  sellsM5 : Option ℕ := none
  volumeM5 : Option ℚ := none
  pairCreatedAt : ℚ := 0
  hasSocialsInfo : Bool := false
  chainId : String := ""
deriving Repr, DecidableEq

/-- Accessor for `(pair.get("liquidity") or \x7b\x7d).get("usd", 0)`. -/
def DsPair.liqUsd (p : DsPair) : ℚ := p.liquidityUsd.getD 0

/-- Accessor for `pair.get("marketCap") or pair.get("fdv") or 0`. -/
def DsPair.mcapOrFdv (p : DsPair) : ℚ :=
  pyNumOr p.marketCap (pyNumOr p.fdv 0)

/-- The loop body of `_check_copycat` (identical in the EVM and Solana
enrichers): iterate the search results, skip symbol mismatches
(case-insensitive) and our own address, and set `is_copycat` on the first
pair that triggers rule 1, 2 or 3. -/
def ccLoop (s : TokenState) (ourLiq : ℚ) (ourAddr : String) :
    List DsPair → TokenState
  | [] => s
  | p :: rest =>
    if pyUpper p.baseSymbol ≠ pyUpper s.token_symbol then
      ccLoop s ourLiq ourAddr rest
    else if pyLower p.baseAddress = ourAddr then
      ccLoop s ourLiq ourAddr rest
    -- Rule 1: other pair has more than 10x our liquidity
    else if ourLiq > 0 ∧ p.liqUsd > ourLiq * 10 then
      { s with is_copycat := true }
    -- Rule 2: other pair has socials, we do not, and it has > 2x liquidity
    else if p.hasSocialsInfo = true ∧ s.has_socials = false ∧
        p.liqUsd > ourLiq * 2 then
      { s with is_copycat := true }
    -- Rule 3: other pair's mcap above 100k while OUR LIQUIDITY is under 50k
    else if p.mcapOrFdv > 100000 ∧ ourLiq < 50000 then
      { s with is_copycat := true }
    else ccLoop s ourLiq ourAddr rest

/-- Function `_check_copycat(state, our_pair)` with the search results passed in
(the HTTP call is external); an exception or empty result leaves the state
unchanged, which the `[]` case covers. -/
def check_copycat (s : TokenState) (ourPair : DsPair)
    (results : List DsPair) : TokenState :=
  ccLoop s ourPair.liqUsd (pyLower s.token_address) results

/-- The per-token body of `_enrich_cycle` once a non-empty pair list is
fetched: project the max-liquidity pair into the DS fields, on first
enrichment populate identity and run the copycat check, then stamp
`ds_last_fetch`. -/
def applyEnrich (s : TokenState) (best : DsPair) (search : List DsPair)
    (now : ℚ) : TokenState :=
  let s1 := { s with
    ds_liquidity_usd := best.liquidityUsd,
    ds_mcap := pyOptOr best.marketCap best.fdv,
    ds_buys_m5 := best.buysM5,
    ds_sells_m5 := best.sellsM5,
    ds_volume_m5 := best.volumeM5 }
  let s2 :=
    if s1.token_symbol = "" then
      let s2 := { s1 with
        token_name := best.baseName,
        token_symbol := best.baseSymbol,
        pair_created_at := best.pairCreatedAt,
        has_socials := best.hasSocialsInfo }
      if s2.token_symbol ≠ "" ∧ s2.is_copycat = false then
        check_copycat s2 best search
      else s2
    else s1
  { s2 with ds_last_fetch := now }

/- ### post_mortem.py : PostMortemTracker._do_follow_up -/

inductive Outcome where
  | TP_HIT
  | RUG
  | DUMP
  | FLAT
  | IMPULSE
  | CHOP
deriving Repr, DecidableEq

/-- The price-change computation of `_do_follow_up`. -/
def priceChangePct (mcapAtSignal mcapNow : ℚ) : ℚ :=
  if mcapAtSignal > 0 ∧ mcapNow > 0 then
    (mcapNow - mcapAtSignal) / mcapAtSignal * 100
  else if mcapAtSignal > 0 ∧ mcapNow = 0 then -100
  else 0

/-- The outcome classification of `_do_follow_up`, in source order. -/
def classifyOutcome (c : ℚ) : Outcome :=
  if c ≥ 30 then .TP_HIT
  else if c ≤ -50 then .RUG
  else if c ≤ -20 then .DUMP
  else if |c| ≤ 10 then .FLAT
  else if c > 10 then .IMPULSE
  else .CHOP

/-- End-to-end follow-up outcome for given signal-time and follow-up mcaps. -/
def followUpOutcome (mcapAtSignal mcapNow : ℚ) : Outcome :=
  classifyOutcome (priceChangePct mcapAtSignal mcapNow)

/- ### base/price_utils.py : estimate_liquidity_usd -/

def estimate_liquidity_usd (s : TokenState) (liquidity sqrtP : ℕ)
    (ethPrice : ℚ) : TokenState :=
  if sqrtP > 0 ∧ ethPrice > 0 then
    { s with liquidity_usd := ((liquidity : ℚ) / (sqrtP : ℚ)) * ethPrice * 2 }
  else s

/- ### base/v4_listener.py / base/v3_listener.py : swap handlers -/

/-- Decoded fields of a swap log (V4: int128 amounts; V3: int256 amounts —
the widths do not matter for the handler logic, both are signed). -/
structure SwapLog where
  poolKey : String
  sender : String
  amount0 : ℤ
  amount1 : ℤ
  sqrtPriceX96 : ℕ
  liquidity : ℕ
  tick : ℤ
deriving Repr, DecidableEq

structure WhaleAlert where
  token : String
  chain : String
  is_buy : Bool
  usd : ℚ
  sender : String
  symbol : String
deriving Repr, DecidableEq

def chainBase : String := "base"

/-- Everything `V4Listener._handle_swap` can touch. -/
structure V4SwapResult where
  pool_map : List (String × String × Bool)
  tracker : TokenStateTracker
  engine : SignalEngine
  hist : DeployerHistory
  whale : List WhaleAlert
deriving Repr, DecidableEq

/-- Common tail of the V3/V4 swap handlers from the `state.sqrt_price_x96`
write onward (the two bodies are identical except that V4 additionally
requires `sqrt_price_x96 > 0` before re-estimating liquidity). -/
def swapTail (cfg : Config) (tr : TokenStateTracker) (eng : SignalEngine)
    (hist : DeployerHistory) (whale : List WhaleAlert) (token : String)
    (ethIs0 : Bool) (st : TokenState) (log : SwapLog)
    (ethPrice now : ℚ) (v4liqGuard : Bool) :
    TokenStateTracker × SignalEngine × DeployerHistory × List WhaleAlert :=
  let st1 := { st with sqrt_price_x96 := log.sqrtPriceX96 }
  let tr1 := { tr with states := aset tr.states (pyLower token) st1 }
  let ethValue : ℚ :=
    ((if ethIs0 then |log.amount0| else |log.amount1| : ℤ) : ℚ) / 10 ^ 18
  let isBuy : Bool :=
    if ethIs0 then decide (log.amount0 > 0) else decide (log.amount1 > 0)
  let usd := ethValue * ethPrice
  let (tr2, eng2, hist2) :=
    if isBuy then
      let rb := tr1.record_buy token log.sender usd now
      match rb.1 with
      | some updated =>
        let liqOk :=
          log.liquidity > 0 ∧ (v4liqGuard = false ∨ log.sqrtPriceX96 > 0)
        let upd2 :=
          if liqOk then
            estimate_liquidity_usd updated log.liquidity log.sqrtPriceX96
              ethPrice
          else updated
        let trU :=
          if liqOk then
            { rb.2 with states := aset rb.2.states (pyLower token) upd2 }
          else rb.2
        let r := evaluate cfg eng hist upd2 now
        ({ trU with states := aset trU.states (pyLower token) r.state },
         r.engine, r.hist)
      | none => (rb.2, eng, hist)
    else
      ((tr1.record_sell token now).2, eng, hist)
  let whale2 :=
    if usd ≥ cfg.WHALE_ALERT_MIN_USD then
      whale ++ [⟨token, chainBase, isBuy, usd, log.sender, st1.token_symbol⟩]
    else whale
  (tr2, eng2, hist2, whale2)

/-- Handler `V4Listener._handle_swap`: an unknown `poolId`, a missing state, or an
already-signaled token drops the event — WITHOUT touching
`pool_id_to_token`. -/
def v4HandleSwap (cfg : Config) (pool_map : List (String × String × Bool))
    (tr : TokenStateTracker) (eng : SignalEngine) (hist : DeployerHistory)
    (whale : List WhaleAlert) (log : SwapLog) (ethPrice now : ℚ) :
    V4SwapResult :=
  match alookup pool_map log.poolKey with
  | none => ⟨pool_map, tr, eng, hist, whale⟩
  | some (token, ethIs0) =>
    let g := tr.get token now
    match g.1 with
    | none => ⟨pool_map, g.2, eng, hist, whale⟩
    | some st =>
      if st.signaled then ⟨pool_map, g.2, eng, hist, whale⟩
      else
        let t := swapTail cfg g.2 eng hist whale token ethIs0 st log
          ethPrice now true
        ⟨pool_map, t.1, t.2.1, t.2.2.1, t.2.2.2⟩

/-- Everything `V3Listener._handle_swap` can touch. -/
structure V3SwapResult where
  pool_map : List (String × String × Bool)
  tracked : List String
  tracker : TokenStateTracker
  engine : SignalEngine
  hist : DeployerHistory
  whale : List WhaleAlert
deriving Repr, DecidableEq

/-- Handler `V3Listener._handle_swap`: an unknown pool drops silently, but a
missing or already-signaled token additionally discards the pool from
`_tracked_pools` and pops it from `pool_to_token`. -/
def v3HandleSwap (cfg : Config) (pool_map : List (String × String × Bool))
    (tracked : List String) (tr : TokenStateTracker) (eng : SignalEngine)
    (hist : DeployerHistory) (whale : List WhaleAlert) (log : SwapLog)
    (ethPrice now : ℚ) : V3SwapResult :=
  match alookup pool_map log.poolKey with
  | none => ⟨pool_map, tracked, tr, eng, hist, whale⟩
  | some (token, ethIs0) =>
    let g := tr.get token now
    match g.1 with
    | none =>
      ⟨aerase pool_map log.poolKey, tracked.erase log.poolKey, g.2, eng,
       hist, whale⟩
    | some st =>
      if st.signaled then
        ⟨aerase pool_map log.poolKey, tracked.erase log.poolKey, g.2, eng,
         hist, whale⟩
      else
        let t := swapTail cfg g.2 eng hist whale token ethIs0 st log
          ethPrice now false
        ⟨pool_map, tracked, t.1, t.2.1, t.2.2.1, t.2.2.2⟩

/- ### Operation algebra over a single token's state, engine and deployer
index: the mutations the pipeline applies to one TokenState. -/

inductive TokenOp where
  | buyOp (buyer : String) (usd now : ℚ)
  | sellOp
  | safetyOp (probe : EvmProbe)
  | enrichOp (best : DsPair) (search : List DsPair) (now : ℚ)
  | evalOp (now : ℚ)
deriving Repr, DecidableEq

def applyOp (cfg : Config) (op : TokenOp)
    (sys : TokenState × SignalEngine × DeployerHistory) :
    TokenState × SignalEngine × DeployerHistory :=
  match op, sys with
  | .buyOp buyer usd now, (s, e, h) => (recordBuyState s buyer usd now, e, h)
  | .sellOp, (s, e, h) => ({ s with total_sells := s.total_sells + 1 }, e, h)
  | .safetyOp probe, (s, e, h) => (run_safety_check probe s, e, h)
  | .enrichOp best search now, (s, e, h) => (applyEnrich s best search now, e, h)
  | .evalOp now, (s, e, h) =>
    let r := evaluate cfg e h s now
    (r.state, r.engine, r.hist)

def applyOps (cfg : Config) (ops : List TokenOp)
    (sys : TokenState × SignalEngine × DeployerHistory) :
    TokenState × SignalEngine × DeployerHistory :=
  ops.foldl (fun sys op => applyOp cfg op sys) sys

/- ### Engine traces: a sequence of evaluate calls, collecting the times of
the fired signals. -/

def runEngine (cfg : Config) :
    List (TokenState × ℚ) → SignalEngine → DeployerHistory →
    SignalEngine × DeployerHistory × List ℚ
  | [], eng, hist => (eng, hist, [])
  | (s, now) :: rest, eng, hist =>
    let r := evaluate cfg eng hist s now
    let k := runEngine cfg rest r.engine r.hist
    (k.1, k.2.1, (if r.fired then [now] else []) ++ k.2.2)

/-- Number of fire times falling in the trailing hour-long window ending
at `T`. -/
def windowCount (T : ℚ) (l : List ℚ) : ℕ :=
  (l.filter (fun t => decide (T - 3600 < t ∧ t ≤ T))).length

/-! ## Theorems -/

/- ### Post-mortem classification (C4, C5) -/

lemma classifyOutcome_cases (c : ℚ) :
    (classifyOutcome c = .TP_HIT ↔ 30 ≤ c) ∧
    (classifyOutcome c = .IMPULSE ↔ 10 < c ∧ c < 30) ∧
    (classifyOutcome c = .FLAT ↔ -10 ≤ c ∧ c ≤ 10) ∧
    (classifyOutcome c = .RUG ↔ c ≤ -50) ∧
    (classifyOutcome c = .DUMP ↔ -50 < c ∧ c ≤ -20) ∧
    (classifyOutcome c = .CHOP ↔ -20 < c ∧ c < -10) := by
  unfold classifyOutcome
  split_ifs with h1 h2 h3 h4 h5
  all_goals try rw [abs_le] at h4
  all_goals refine ⟨?_, ?_, ?_, ?_, ?_, ?_⟩
  all_goals constructor
  all_goals intro h
  all_goals try exact absurd h (by decide)
  all_goals first
    | rfl
    | linarith
    | linarith [h.1, h.2]
    | (exfalso; linarith)
    | (exfalso; linarith [h.1, h.2])
    | exact ⟨by linarith, by linarith⟩
    | (rcases not_and_or.mp h4 with h4a | h4a <;>
        first
          | linarith
          | (exfalso; linarith)
          | exact ⟨by linarith, by linarith⟩)

/-- C4.  Post-mortem classification function: for a follow-up with
`mcap_at_signal > 0` the recorded change is
`(mcap_now - mcap_at_signal) / mcap_at_signal * 100` when `mcap_now > 0`
and `-100` when `mcap_now = 0`, and the recorded outcome is exactly
TP_HIT for change ≥ 30, IMPULSE on (10, 30), FLAT for abs change ≤ 10,
RUG for change ≤ -50, DUMP on (-50, -20], and CHOP otherwise
(i.e. on (-20, -10)). -/
theorem post_mortem_classification_spec (ms mn : ℚ) (hms : 0 < ms)
    (hmn : 0 ≤ mn) :
    (priceChangePct ms mn =
      if 0 < mn then (mn - ms) / ms * 100 else -100) ∧
    ((followUpOutcome ms mn = .TP_HIT ↔ 30 ≤ priceChangePct ms mn) ∧
     (followUpOutcome ms mn = .IMPULSE ↔
        10 < priceChangePct ms mn ∧ priceChangePct ms mn < 30) ∧
     (followUpOutcome ms mn = .FLAT ↔ |priceChangePct ms mn| ≤ 10) ∧
     (followUpOutcome ms mn = .RUG ↔ priceChangePct ms mn ≤ -50) ∧
     (followUpOutcome ms mn = .DUMP ↔
        -50 < priceChangePct ms mn ∧ priceChangePct ms mn ≤ -20) ∧
     (followUpOutcome ms mn = .CHOP ↔
        -20 < priceChangePct ms mn ∧ priceChangePct ms mn < -10)) := by
  constructor
  · unfold priceChangePct
    by_cases h : 0 < mn
    · simp [hms, h]
    · have h0 : mn = 0 := le_antisymm (not_lt.mp h) hmn
      simp [hms, h, h0]
  · have := classifyOutcome_cases (priceChangePct ms mn)
    unfold followUpOutcome
    rw [abs_le]
    exact this

/-- C4 witness: the theorem applied at `mcap_at_signal = 10000`,
`mcap_now = 14000`. -/
theorem post_mortem_classification_spec_witness :
    (0 : ℚ) < 10000 ∧ (0 : ℚ) ≤ 14000 ∧
    (followUpOutcome 10000 14000 = .TP_HIT ↔
      30 ≤ priceChangePct 10000 14000) := by
  refine ⟨by norm_num, by norm_num, ?_⟩
  exact (post_mortem_classification_spec 10000 14000 (by norm_num)
    (by norm_num)).2.1

/-- C5 counterexample: at `mcap_at_signal = 10000` a follow-up of 14000 is
a +40 % change and classifies TP_HIT, not IMPULSE as the claim states; a
follow-up of 3000 is a -70 % change and classifies RUG, not DUMP. -/
theorem post_mortem_scenario_counterexample :
    followUpOutcome 10000 14000 = .TP_HIT ∧
    followUpOutcome 10000 14000 ≠ .IMPULSE ∧
    followUpOutcome 10000 3000 = .RUG ∧
    followUpOutcome 10000 3000 ≠ .DUMP := by
  norm_num [followUpOutcome, priceChangePct, classifyOutcome]
  decide

/-- C5 (amended).  For `mcap_at_signal = 10000`: follow-up 14000 → TP_HIT,
3000 → RUG, 4000 → RUG, 0 → RUG, 10500 → FLAT. -/
theorem post_mortem_scenario_amended :
    followUpOutcome 10000 14000 = .TP_HIT ∧
    followUpOutcome 10000 3000 = .RUG ∧
    followUpOutcome 10000 4000 = .RUG ∧
    followUpOutcome 10000 0 = .RUG ∧
    followUpOutcome 10000 10500 = .FLAT := by
  norm_num [followUpOutcome, priceChangePct, classifyOutcome]

/- ### Safety probes (C2, C3) -/

/-- C2.  Stored SPL safety verdict: on a successful fetch the verdict is
safe exactly when both authorities are null (and unsafe otherwise), and on
a timeout it is unknown — but on an RPC error the stored verdict is
`some true` (safe), NOT unknown: the error dict returned by `check_mint`
carries no authority keys, so `run_sol_safety_check` writes `None` into
both authority fields and `update_safety` maps that to safe.  This
contradicts the claim (and `check_mint`'s own tri-state `safe` field,
which is correctly `None` on error but is ignored by the caller). -/
theorem sol_safety_probe_verdicts (s : SolTokenState) :
    (run_sol_safety_check .timeout s).bytecode_safe = none ∧
    (run_sol_safety_check (.completed .rpcError) s).bytecode_safe = some true ∧
    (check_mint .rpcError).safe = none ∧
    (∀ info : SolMintInfo,
      info.mintAuthority ≠ some uncheckedTag →
      info.freezeAuthority ≠ some uncheckedTag →
      (run_sol_safety_check (.completed (.ok (some info))) s).bytecode_safe =
        some (decide (info.mintAuthority = none ∧
                      info.freezeAuthority = none))) := by
  refine ⟨rfl, rfl, rfl, ?_⟩
  intro info h1 h2
  simp only [run_sol_safety_check, check_mint, SolTokenState.update_safety]
  simp only [h1, h2, false_or, or_self, if_false]
  by_cases h : info.mintAuthority = none ∧ info.freezeAuthority = none <;>
    simp [h]

def solMintAddrEx : String := "9xQeWvG816bUx9EPjHmaT23yvVM2ZWbrrpZb9PusVF1n"

def c2sol : SolTokenState :=
  { token_address := "So1TokenMint1111111111111111111111111111111",
    pair_address := "RayPoo1Address111111111111111111111111111111",
    first_seen := 0 }

def c2info : SolMintInfo :=
  { mintAuthority := some solMintAddrEx, freezeAuthority := none }

/-- C2 witness: a fetched account with an active mint authority stores an
unsafe verdict. -/
theorem sol_safety_probe_verdicts_witness :
    c2info.mintAuthority ≠ some uncheckedTag ∧
    c2info.freezeAuthority ≠ some uncheckedTag ∧
    (run_sol_safety_check (.completed (.ok (some c2info)))
        c2sol).bytecode_safe =
      some (decide (c2info.mintAuthority = none ∧
                    c2info.freezeAuthority = none)) := by
  refine ⟨by decide, by decide, ?_⟩
  exact (sol_safety_probe_verdicts c2sol).2.2.2 c2info (by decide) (by decide)

def c3state : TokenState :=
  { token_address := "0xc3c3c3c3c3c3c3c3c3c3c3c3c3c3c3c3c3c3c3c3",
    pair_address := "0xc3pool", first_seen := 0, dex_version := "v4" }

/-- C3 counterexample: when `eth_getCode` raises, `check_token` catches the
exception itself and returns `safe = False`, so the stored verdict is
unsafe — not unknown as the claim states. -/
theorem evm_safety_rpc_error_counterexample :
    (run_safety_check (.completed .fetchError) c3state).bytecode_safe =
      some false ∧
    (some false : Option Bool) ≠ none := by
  exact ⟨rfl, by decide⟩

/-- C3 (amended).  The EVM safety probe stores an unknown verdict on the
10 s timeout (or an exception escaping `check_token`), but a failing
`eth_getCode` RPC call inside `check_token` stores an UNSAFE verdict
(`safe = False`, reason "Failed to fetch bytecode"); and an unknown
verdict never changes the outcome of `SignalEngine.evaluate` — a token
with `bytecode_safe = None` fires exactly when the same token with
`bytecode_safe = True` does. -/
theorem evm_safety_probe_verdicts :
    (∀ s : TokenState,
      (run_safety_check .timeout s).bytecode_safe = none) ∧
    (∀ s : TokenState,
      (run_safety_check .otherError s).bytecode_safe = none) ∧
    (∀ s : TokenState,
      (run_safety_check (.completed .fetchError) s).bytecode_safe =
        some false) ∧
    (∀ (cfg : Config) (eng : SignalEngine) (hist : DeployerHistory)
        (s : TokenState) (now : ℚ),
      (evaluate cfg eng hist { s with bytecode_safe := none } now).fired =
      (evaluate cfg eng hist { s with bytecode_safe := some true } now).fired) := by
  refine ⟨fun s => rfl, fun s => rfl, fun s => rfl, ?_⟩
  intro cfg eng hist s now
  simp only [evaluate, evaluateRest, apply_ite EvalResult.fired]
  simp [TokenState.best_mcap, TokenState.best_liquidity, TokenState.best_buys,
    largestBuyPct, honeypotSuspect]

/- ### Characterisation lemmas for SignalEngine.evaluate -/

lemma evaluateRest_hist (cfg : Config) (eng : SignalEngine)
    (hist : DeployerHistory) (s : TokenState) (now : ℚ) :
    (evaluateRest cfg eng hist s now).hist = hist := by
  unfold evaluateRest
  split_ifs <;> rfl

lemma evaluateRest_fired_false (cfg : Config) (eng : SignalEngine)
    (hist : DeployerHistory) (s : TokenState) (now : ℚ)
    (h : (evaluateRest cfg eng hist s now).fired = false) :
    (evaluateRest cfg eng hist s now).state = s ∧
    (evaluateRest cfg eng hist s now).engine.signal_queue =
      eng.signal_queue ∧
    (evaluateRest cfg eng hist s now).engine.signal_timestamps =
      eng.signal_timestamps ∧
    (evaluateRest cfg eng hist s now).hist = hist := by
  unfold evaluateRest at h ⊢
  split_ifs at h ⊢
  all_goals first
    | exact ⟨rfl, rfl, rfl, rfl⟩
    | simp at h

lemma evaluateRest_fired_true (cfg : Config) (eng : SignalEngine)
    (hist : DeployerHistory) (s : TokenState) (now : ℚ)
    (h : (evaluateRest cfg eng hist s now).fired = true) :
    (evaluateRest cfg eng hist s now).state =
      { s with signaled := true, signal_time := now } ∧
    (evaluateRest cfg eng hist s now).engine.signal_queue =
      eng.signal_queue ++ [s.token_address] ∧
    (evaluateRest cfg eng hist s now).engine.signal_timestamps =
      eng.signal_timestamps ++ [now] ∧
    (evaluateRest cfg eng hist s now).hist = hist := by
  unfold evaluateRest at h ⊢
  split_ifs at h ⊢
  all_goals first
    | exact ⟨rfl, rfl, rfl, rfl⟩
    | simp at h

set_option maxHeartbeats 1600000 in
/-- A non-firing evaluate call returns the token state unchanged and does
not touch the signal queue. -/
lemma evaluate_fired_false (cfg : Config) (eng : SignalEngine)
    (hist : DeployerHistory) (s : TokenState) (now : ℚ)
    (h : (evaluate cfg eng hist s now).fired = false) :
    (evaluate cfg eng hist s now).state = s ∧
    (evaluate cfg eng hist s now).engine.signal_queue = eng.signal_queue := by
  unfold evaluate at h ⊢
  split_ifs at h ⊢
  all_goals first
    | exact ⟨rfl, rfl⟩
    | exact ⟨(evaluateRest_fired_false _ _ _ _ _ h).1,
             (evaluateRest_fired_false _ _ _ _ _ h).2.1⟩

set_option maxHeartbeats 1600000 in
/-- A firing evaluate call marks the state, appends the token to the
queue, and can only happen on a not-yet-signaled state. -/
lemma evaluate_fired_true (cfg : Config) (eng : SignalEngine)
    (hist : DeployerHistory) (s : TokenState) (now : ℚ)
    (h : (evaluate cfg eng hist s now).fired = true) :
    s.signaled = false ∧
    (evaluate cfg eng hist s now).state =
      { s with signaled := true, signal_time := now } ∧
    (evaluate cfg eng hist s now).engine.signal_queue =
      eng.signal_queue ++ [s.token_address] := by
  unfold evaluate at h ⊢
  split_ifs at h ⊢ with h1
  all_goals try simp at h
  all_goals
    refine ⟨by simp_all, (evaluateRest_fired_true _ _ _ _ _ h).1,
            (evaluateRest_fired_true _ _ _ _ _ h).2.1⟩

/-- Evaluate on an already-signaled state: returns false immediately, the
state, the queue, the timestamps and the deployer index are untouched
(only total_evaluated is bumped). -/
lemma evaluate_already_signaled (cfg : Config) (eng : SignalEngine)
    (hist : DeployerHistory) (s : TokenState) (now : ℚ)
    (h : s.signaled = true) :
    (evaluate cfg eng hist s now).fired = false ∧
    (evaluate cfg eng hist s now).state = s ∧
    (evaluate cfg eng hist s now).engine = bumpEval eng ∧
    (evaluate cfg eng hist s now).hist = hist := by
  unfold evaluate
  simp [h]

set_option maxHeartbeats 1600000 in
/-- The deployer index after evaluate: unchanged, unless the state carries
a deployer address, in which case it is exactly one record_deployer
call. -/
lemma evaluate_hist_cases (cfg : Config) (eng : SignalEngine)
    (hist : DeployerHistory) (s : TokenState) (now : ℚ) :
    ((evaluate cfg eng hist s now).hist = hist ∨
     (evaluate cfg eng hist s now).hist =
       (record_deployer hist s.deployer_address s.token_address now).1) ∧
    (s.deployer_address = "" → (evaluate cfg eng hist s now).hist = hist) := by
  unfold evaluate
  split_ifs
  all_goals first
    | exact ⟨Or.inl rfl, fun _ => rfl⟩
    | exact ⟨Or.inr rfl, fun hd => absurd hd (by assumption)⟩
    | exact ⟨Or.inr (evaluateRest_hist _ _ _ _ _),
             fun hd => absurd hd (by assumption)⟩
    | exact ⟨Or.inl (evaluateRest_hist _ _ _ _ _),
             fun _ => evaluateRest_hist _ _ _ _ _⟩

/-- Goal-shaped helper: behaviour of the tail call on the pruned engine. -/
lemma evaluateRest_pruned_cases (cfg : Config) (eng : SignalEngine)
    (now : ℚ) (hist2 : DeployerHistory) (s : TokenState)
    (hcap : ¬ (pruneHour eng.signal_timestamps now).length ≥
      cfg.MAX_SIGNALS_PER_HOUR) :
    ((evaluateRest cfg (withPruned (bumpEval eng) now) hist2 s now).fired =
        false ∧
      ((evaluateRest cfg (withPruned (bumpEval eng) now) hist2 s
            now).engine.signal_timestamps = eng.signal_timestamps ∨
       (evaluateRest cfg (withPruned (bumpEval eng) now) hist2 s
            now).engine.signal_timestamps =
          pruneHour eng.signal_timestamps now)) ∨
    ((evaluateRest cfg (withPruned (bumpEval eng) now) hist2 s now).fired =
        true ∧
      (evaluateRest cfg (withPruned (bumpEval eng) now) hist2 s
          now).engine.signal_timestamps =
        pruneHour eng.signal_timestamps now ++ [now] ∧
      (pruneHour eng.signal_timestamps now).length <
        cfg.MAX_SIGNALS_PER_HOUR) := by
  rcases Bool.eq_false_or_eq_true
      (evaluateRest cfg (withPruned (bumpEval eng) now) hist2 s now).fired
    with hf | hf
  · exact Or.inr ⟨hf, (evaluateRest_fired_true _ _ _ _ _ hf).2.2.1,
      lt_of_not_ge hcap⟩
  · exact Or.inl ⟨hf,
      Or.inr (evaluateRest_fired_false _ _ _ _ _ hf).2.2.1⟩

set_option maxHeartbeats 1600000 in
/-- The engine timestamp list after evaluate: untouched, or pruned to the
trailing hour, or pruned-and-appended when the call fires — and a fire
implies the pruned list was strictly below the hourly cap. -/
lemma evaluate_timestamps_cases (cfg : Config) (eng : SignalEngine)
    (hist : DeployerHistory) (s : TokenState) (now : ℚ) :
    ((evaluate cfg eng hist s now).fired = false ∧
      ((evaluate cfg eng hist s now).engine.signal_timestamps =
         eng.signal_timestamps ∨
       (evaluate cfg eng hist s now).engine.signal_timestamps =
         pruneHour eng.signal_timestamps now)) ∨
    ((evaluate cfg eng hist s now).fired = true ∧
      (evaluate cfg eng hist s now).engine.signal_timestamps =
        pruneHour eng.signal_timestamps now ++ [now] ∧
      (pruneHour eng.signal_timestamps now).length <
        cfg.MAX_SIGNALS_PER_HOUR) := by
  unfold evaluate
  split_ifs
  all_goals first
    | exact Or.inl ⟨rfl, Or.inl rfl⟩
    | exact Or.inl ⟨rfl, Or.inr rfl⟩
    | exact evaluateRest_pruned_cases cfg eng now _ s (by assumption)

/-- Evaluate never fires once the pruned trailing-hour list has reached
the cap. -/
lemma evaluate_no_fire_at_cap (cfg : Config) (eng : SignalEngine)
    (hist : DeployerHistory) (s : TokenState) (now : ℚ)
    (h : cfg.MAX_SIGNALS_PER_HOUR ≤
      (pruneHour eng.signal_timestamps now).length) :
    (evaluate cfg eng hist s now).fired = false := by
  rcases evaluate_timestamps_cases cfg eng hist s now with ⟨hf, _⟩ | ⟨_, _, hlt⟩
  · exact hf
  · omega

/- ### C10: rejection leaves the token state intact -/

/-- C10.  Whenever `SignalEngine.evaluate` returns false — already
signaled or any gate rejected — the TokenState is returned completely
unchanged and the signal queue is untouched; the deployer side-index is
unchanged except (when the state carries a non-empty deployer address)
for the single `record_deployer` call, and is always unchanged when the
deployer address is empty.  Only engine statistics (counters, rejection
tallies, the pruned timestamp list) may change. -/
theorem evaluate_reject_frame (cfg : Config) (eng : SignalEngine)
    (hist : DeployerHistory) (s : TokenState) (now : ℚ)
    (h : (evaluate cfg eng hist s now).fired = false) :
    (evaluate cfg eng hist s now).state = s ∧
    (evaluate cfg eng hist s now).engine.signal_queue = eng.signal_queue ∧
    ((evaluate cfg eng hist s now).hist = hist ∨
     (evaluate cfg eng hist s now).hist =
       (record_deployer hist s.deployer_address s.token_address now).1) ∧
    (s.deployer_address = "" → (evaluate cfg eng hist s now).hist = hist) := by
  exact ⟨(evaluate_fired_false cfg eng hist s now h).1,
         (evaluate_fired_false cfg eng hist s now h).2,
         (evaluate_hist_cases cfg eng hist s now).1,
         (evaluate_hist_cases cfg eng hist s now).2⟩

def c10state : TokenState :=
  { token_address := "0xc10c10c10c10c10c10c10c10c10c10c10c10c10c",
    pair_address := "0xc10pool", first_seen := 0, dex_version := "v4",
    signaled := true }

/-- C10 witness: evaluating an already-signaled token returns false and
leaves the state, queue and deployer index unchanged. -/
theorem evaluate_reject_frame_witness :
    (evaluate {} {} [] c10state 5).fired = false ∧
    (evaluate {} {} [] c10state 5).state = c10state ∧
    (evaluate {} {} [] c10state 5).engine.signal_queue =
      ({} : SignalEngine).signal_queue ∧
    ((evaluate {} {} [] c10state 5).hist = [] ∨
     (evaluate {} {} [] c10state 5).hist =
       (record_deployer [] c10state.deployer_address c10state.token_address
          5).1) ∧
    (c10state.deployer_address = "" →
      (evaluate {} {} [] c10state 5).hist = []) := by
  have h : (evaluate {} {} [] c10state 5).fired = false := rfl
  exact ⟨h, (evaluate_reject_frame {} {} [] c10state 5 h).1,
         (evaluate_reject_frame {} {} [] c10state 5 h).2.1,
         (evaluate_reject_frame {} {} [] c10state 5 h).2.2.1,
         (evaluate_reject_frame {} {} [] c10state 5 h).2.2.2⟩

/- ### C1: at-most-once signalling -/

lemma run_safety_check_frame (p : EvmProbe) (s : TokenState) :
    (run_safety_check p s).signaled = s.signaled ∧
    (run_safety_check p s).token_address = s.token_address := by
  cases p <;> exact ⟨rfl, rfl⟩

lemma ccLoop_frame (s : TokenState) (q : ℚ) (a : String) :
    ∀ l : List DsPair,
      (ccLoop s q a l).signaled = s.signaled ∧
      (ccLoop s q a l).token_address = s.token_address
  | [] => ⟨rfl, rfl⟩
  | p :: rest => by
    unfold ccLoop
    split_ifs <;> first
      | exact ccLoop_frame s q a rest
      | exact ⟨rfl, rfl⟩

lemma applyEnrich_frame (s : TokenState) (best : DsPair)
    (search : List DsPair) (now : ℚ) :
    (applyEnrich s best search now).signaled = s.signaled ∧
    (applyEnrich s best search now).token_address = s.token_address := by
  unfold applyEnrich check_copycat
  dsimp only
  split_ifs <;> first
    | exact ccLoop_frame _ _ _ search
    | exact ⟨rfl, rfl⟩

/-- Trace invariant: the queue gains the token address exactly when the
signaled flag flips, and a signaled state stays signaled with a frozen
queue. -/
lemma applyOps_signal_once (cfg : Config) :
    ∀ (ops : List TokenOp) (s : TokenState) (e : SignalEngine)
      (h : DeployerHistory),
      (applyOps cfg ops (s, e, h)).1.token_address = s.token_address ∧
      (s.signaled = true →
        (applyOps cfg ops (s, e, h)).1.signaled = true ∧
        (applyOps cfg ops (s, e, h)).2.1.signal_queue = e.signal_queue) ∧
      (s.signaled = false →
        ((applyOps cfg ops (s, e, h)).1.signaled = false ∧
          (applyOps cfg ops (s, e, h)).2.1.signal_queue = e.signal_queue) ∨
        ((applyOps cfg ops (s, e, h)).1.signaled = true ∧
          (applyOps cfg ops (s, e, h)).2.1.signal_queue =
            e.signal_queue ++ [s.token_address]))
  | [], s, e, h =>
    ⟨rfl, fun hs => ⟨hs, rfl⟩, fun hs => Or.inl ⟨hs, rfl⟩⟩
  | op :: rest, s, e, h => by
    have hstep : applyOps cfg (op :: rest) (s, e, h) =
        applyOps cfg rest (applyOp cfg op (s, e, h)) := rfl
    rw [hstep]
    cases op with
    | buyOp buyer usd now =>
      exact applyOps_signal_once cfg rest (recordBuyState s buyer usd now) e h
    | sellOp =>
      exact applyOps_signal_once cfg rest
        { s with total_sells := s.total_sells + 1 } e h
    | safetyOp probe =>
      simp only [applyOp]
      obtain ⟨hsig, haddr⟩ := run_safety_check_frame probe s
      obtain ⟨ha, ht, hf⟩ :=
        applyOps_signal_once cfg rest (run_safety_check probe s) e h
      refine ⟨haddr ▸ ha, fun hs => ht (hsig.trans hs), fun hs => ?_⟩
      rcases hf (hsig.trans hs) with ⟨h1, h2⟩ | ⟨h1, h2⟩
      · exact Or.inl ⟨h1, h2⟩
      · exact Or.inr ⟨h1, by rw [h2, haddr]⟩
    | enrichOp best search now =>
      simp only [applyOp]
      obtain ⟨hsig, haddr⟩ := applyEnrich_frame s best search now
      obtain ⟨ha, ht, hf⟩ :=
        applyOps_signal_once cfg rest (applyEnrich s best search now) e h
      refine ⟨haddr ▸ ha, fun hs => ht (hsig.trans hs), fun hs => ?_⟩
      rcases hf (hsig.trans hs) with ⟨h1, h2⟩ | ⟨h1, h2⟩
      · exact Or.inl ⟨h1, h2⟩
      · exact Or.inr ⟨h1, by rw [h2, haddr]⟩
    | evalOp now =>
      rcases Bool.eq_false_or_eq_true s.signaled with hs | hs
      · -- already signaled: evaluate is a no-op on state and queue
        obtain ⟨_, hst, heng, hh⟩ :=
          evaluate_already_signaled cfg e h s now hs
        have harr : applyOp cfg (.evalOp now) (s, e, h) =
            (s, bumpEval e, h) := by
          simp only [applyOp]
          rw [hst, heng, hh]
        rw [harr]
        obtain ⟨ha, ht, hf⟩ := applyOps_signal_once cfg rest s (bumpEval e) h
        refine ⟨ha, fun hsx => ht hsx, fun hsx => ?_⟩
        rw [hs] at hsx
        cases hsx
      · rcases Bool.eq_false_or_eq_true
            (evaluate cfg e h s now).fired with hfT | hfF
        · -- this evaluate call fires
          obtain ⟨_, hst, hq⟩ := evaluate_fired_true cfg e h s now hfT
          have harr : applyOp cfg (.evalOp now) (s, e, h) =
              ({ s with signaled := true, signal_time := now },
               (evaluate cfg e h s now).engine,
               (evaluate cfg e h s now).hist) := by
            simp only [applyOp]
            rw [hst]
          rw [harr]
          obtain ⟨ha, ht, _⟩ := applyOps_signal_once cfg rest
            { s with signaled := true, signal_time := now }
            (evaluate cfg e h s now).engine (evaluate cfg e h s now).hist
          obtain ⟨h1, h2⟩ := ht rfl
          refine ⟨ha, fun hsx => ?_, fun _ => ?_⟩
          · rw [hs] at hsx
            cases hsx
          · exact Or.inr ⟨h1, by rw [h2, hq]⟩
        · -- this evaluate call rejects: full frame
          obtain ⟨hst, hq⟩ := evaluate_fired_false cfg e h s now hfF
          have harr : applyOp cfg (.evalOp now) (s, e, h) =
              (s, (evaluate cfg e h s now).engine,
               (evaluate cfg e h s now).hist) := by
            simp only [applyOp]
            rw [hst]
          rw [harr]
          obtain ⟨ha, ht, hf⟩ := applyOps_signal_once cfg rest s
            (evaluate cfg e h s now).engine (evaluate cfg e h s now).hist
          refine ⟨ha, fun hsx => ?_, fun hsx => ?_⟩
          · rw [hs] at hsx
            cases hsx
          rcases hf hsx with ⟨h1, h2⟩ | ⟨h1, h2⟩
          · exact Or.inl ⟨h1, by rw [h2, hq]⟩
          · exact Or.inr ⟨h1, by rw [h2, hq]⟩

/-- C1.  At-most-once signalling: (i) evaluate on an already-signaled
state returns false immediately, leaving the state and the signal queue
untouched; (ii) no operation (buy, sell, safety write, enrichment or
evaluate) ever resets a signaled flag; (iii) over any operation trace
starting from a not-yet-signaled token, the engine's signal queue gains
the token address exactly once if the trace ends signaled and zero times
otherwise — i.e. exactly as many times as the flag transitions
false→true. -/
theorem evaluate_at_most_once_signal :
    (∀ (cfg : Config) (eng : SignalEngine) (hist : DeployerHistory)
        (s : TokenState) (now : ℚ), s.signaled = true →
      (evaluate cfg eng hist s now).fired = false ∧
      (evaluate cfg eng hist s now).state = s ∧
      (evaluate cfg eng hist s now).engine.signal_queue =
        eng.signal_queue) ∧
    (∀ (cfg : Config) (op : TokenOp) (s : TokenState) (e : SignalEngine)
        (h : DeployerHistory), s.signaled = true →
      (applyOp cfg op (s, e, h)).1.signaled = true) ∧
    (∀ (cfg : Config) (ops : List TokenOp) (s : TokenState)
        (e : SignalEngine) (h : DeployerHistory), s.signaled = false →
      (applyOps cfg ops (s, e, h)).2.1.signal_queue.count s.token_address =
        e.signal_queue.count s.token_address +
          (if (applyOps cfg ops (s, e, h)).1.signaled = true then 1
           else 0)) := by
  refine ⟨?_, ?_, ?_⟩
  · intro cfg eng hist s now hs
    obtain ⟨hf, hst, heng, _⟩ := evaluate_already_signaled cfg eng hist s now hs
    exact ⟨hf, hst, by rw [heng]; rfl⟩
  · intro cfg op s e h hs
    exact (applyOps_signal_once cfg [op] s e h).2.1 hs |>.1
  · intro cfg ops s e h hs
    rcases (applyOps_signal_once cfg ops s e h).2.2 hs with ⟨h1, h2⟩ | ⟨h1, h2⟩
    · rw [h1, h2]
      simp
    · rw [h1, h2]
      simp [List.count_append]

def c1state : TokenState :=
  { token_address := "0xc1c1c1c1c1c1c1c1c1c1c1c1c1c1c1c1c1c1c1c1",
    pair_address := "0xc1pool", first_seen := 0, dex_version := "v4",
    liquidity_usd := 5000, estimated_mcap := 15000, total_buys := 2,
    largest_buy_usd := 600, bytecode_safe := some true }

/-- C1 witness: a one-call trace on a token that passes every gate. -/
theorem evaluate_at_most_once_signal_witness :
    c1state.signaled = false ∧
    (applyOps {} [TokenOp.evalOp 60]
        (c1state, {}, [])).2.1.signal_queue.count c1state.token_address =
      ({} : SignalEngine).signal_queue.count c1state.token_address +
        (if (applyOps {} [TokenOp.evalOp 60]
              (c1state, {}, [])).1.signaled = true then 1 else 0) := by
  exact ⟨rfl,
    evaluate_at_most_once_signal.2.2 {} [TokenOp.evalOp 60] c1state {} [] rfl⟩

/- ### C7: hourly signal cap -/

lemma pruneHour_eq (ts : List ℚ) (now : ℚ) :
    pruneHour ts now = ts.filter (fun t => decide (now - 3600 < t)) := by
  unfold pruneHour
  apply List.filter_congr
  intro t _
  simp only [decide_eq_decide]
  constructor <;> intro <;> linarith

/-- Filtering a sorted rational list by a strict lower bound keeps exactly
a suffix; every dropped element is at most the bound. -/
lemma sorted_filter_decomp (c : ℚ) :
    ∀ l : List ℚ, l.Sorted (· ≤ ·) →
      ∃ d k, l = d ++ k ∧ l.filter (fun t => decide (c < t)) = k ∧
        ∀ t ∈ d, t ≤ c
  | [], _ => ⟨[], [], rfl, rfl, by simp⟩
  | a :: l, h => by
    obtain ⟨hab, hl⟩ := List.sorted_cons.mp h
    by_cases hc : c < a
    · refine ⟨[], a :: l, rfl, ?_, by simp⟩
      rw [List.filter_eq_self]
      intro t ht
      rcases List.mem_cons.mp ht with rfl | ht
      · simpa using hc
      · simpa using lt_of_lt_of_le hc (hab t ht)
    · obtain ⟨d, k, hdk, hfil, hd⟩ := sorted_filter_decomp c l hl
      refine ⟨a :: d, k, by rw [List.cons_append, hdk], ?_, ?_⟩
      · rw [List.filter_cons]
        simpa [hc] using hfil
      · intro t ht
        rcases List.mem_cons.mp ht with rfl | ht
        · exact le_of_not_lt hc
        · exact hd t ht

lemma windowCount_append_singleton (T x : ℚ) (l : List ℚ) :
    windowCount T (l ++ [x]) =
      windowCount T l + (if T - 3600 < x ∧ x ≤ T then 1 else 0) := by
  unfold windowCount
  rw [List.filter_append, List.length_append]
  by_cases h : T - 3600 < x ∧ x ≤ T <;> simp [h]

/-- At fire time, any trailing-hour window ending at `T ≥ now` contains at
most as many past fires as the engine's pruned timestamp list holds. -/
lemma windowCount_le_prune (T now : ℚ) (hTnow : now ≤ T) (old ts : List ℚ)
    (hold : ∀ t ∈ old, t + 3600 ≤ now)
    (hts : ∀ t ∈ ts, now - 3600 < t) :
    windowCount T (old ++ ts) ≤ ts.length := by
  have hmono : List.Sublist
      ((old ++ ts).filter (fun t => decide (T - 3600 < t ∧ t ≤ T)))
      ((old ++ ts).filter (fun t => decide (now - 3600 < t))) := by
    apply List.monotone_filter_right
    intro t ht
    simp only [decide_eq_true_eq] at ht ⊢
    linarith [ht.1, ht.2]
  have hsplit : (old ++ ts).filter (fun t => decide (now - 3600 < t)) = ts := by
    rw [List.filter_append]
    have h1 : old.filter (fun t => decide (now - 3600 < t)) = [] := by
      rw [List.filter_eq_nil_iff]
      intro t ht
      have := hold t ht
      simp only [decide_eq_true_eq]
      push_neg
      linarith
    have h2 : ts.filter (fun t => decide (now - 3600 < t)) = ts := by
      rw [List.filter_eq_self]
      intro t ht
      simpa using hts t ht
    rw [h1, h2, List.nil_append]
  calc windowCount T (old ++ ts)
      ≤ ((old ++ ts).filter (fun t => decide (now - 3600 < t))).length :=
        hmono.length_le
    _ = ts.length := by rw [hsplit]

lemma runEngine_cons (cfg : Config) (s : TokenState) (now : ℚ)
    (rest : List (TokenState × ℚ)) (eng : SignalEngine)
    (hist : DeployerHistory) :
    (runEngine cfg ((s, now) :: rest) eng hist).2.2 =
      (if (evaluate cfg eng hist s now).fired then [now] else []) ++
      (runEngine cfg rest (evaluate cfg eng hist s now).engine
        (evaluate cfg eng hist s now).hist).2.2 := rfl

/-- Invariant induction for the hourly cap: `old` holds the fire times
already pruned out of the engine (all at least an hour older than
`lastNow`), `eng.signal_timestamps` the retained suffix; every
trailing-hour window over past fires is below the cap, and this is
preserved by any further trace of evaluate calls with non-decreasing
clocks. -/
lemma runEngine_window_inv (cfg : Config) :
    ∀ (calls : List (TokenState × ℚ)) (eng : SignalEngine)
      (hist : DeployerHistory) (old : List ℚ) (lastNow : ℚ),
      (calls.map Prod.snd).Sorted (· ≤ ·) →
      (∀ c ∈ calls, lastNow ≤ c.2) →
      (old ++ eng.signal_timestamps).Sorted (· ≤ ·) →
      (∀ t ∈ old ++ eng.signal_timestamps, t ≤ lastNow) →
      (∀ t ∈ old, t + 3600 ≤ lastNow) →
      (∀ T, windowCount T (old ++ eng.signal_timestamps) ≤
        cfg.MAX_SIGNALS_PER_HOUR) →
      ∀ T, windowCount T ((old ++ eng.signal_timestamps) ++
          (runEngine cfg calls eng hist).2.2) ≤ cfg.MAX_SIGNALS_PER_HOUR
  | [], eng, hist, old, lastNow => by
    intro _ _ _ _ _ hW T
    simpa [runEngine] using hW T
  | (s, now) :: rest, eng, hist, old, lastNow => by
    intro hsorted hge hSort hBound hOld hW
    have hln : lastNow ≤ now := hge (s, now) (List.mem_cons_self _ _)
    have hsc := List.sorted_cons.mp hsorted
    have hsr : (rest.map Prod.snd).Sorted (· ≤ ·) := hsc.2
    have hgr : ∀ c ∈ rest, now ≤ c.2 := fun c hc =>
      hsc.1 c.2 (List.mem_map_of_mem Prod.snd hc)
    have hallnow : ∀ t ∈ old ++ eng.signal_timestamps, t ≤ now :=
      fun t ht => le_trans (hBound t ht) hln
    have hts_sorted : eng.signal_timestamps.Sorted (· ≤ ·) :=
      hSort.sublist (List.sublist_append_right old _)
    obtain ⟨d, k, hdk, hfil, hd⟩ :=
      sorted_filter_decomp (now - 3600) eng.signal_timestamps hts_sorted
    have hassoc : old ++ eng.signal_timestamps = (old ++ d) ++ k := by
      rw [hdk, List.append_assoc]
    have hOld' : ∀ t ∈ old ++ d, t + 3600 ≤ now := by
      intro t ht
      rcases List.mem_append.mp ht with ht | ht
      · exact le_trans (hOld t ht) hln
      · have := hd t ht
        linarith
    have hkmem : ∀ t ∈ k, now - 3600 < t := by
      intro t ht
      have : t ∈ eng.signal_timestamps.filter
          (fun t => decide (now - 3600 < t)) := by rw [hfil]; exact ht
      simpa using (List.mem_filter.mp this).2
    intro T
    rcases evaluate_timestamps_cases cfg eng hist s now with
      ⟨hf, hts | hts⟩ | ⟨hf, hts, hlt⟩
    · -- not fired, timestamps untouched
      rw [runEngine_cons, hf]
      simp only [Bool.false_eq_true, if_false, List.nil_append]
      have hSort' : (old ++ (evaluate cfg eng hist s now).engine.signal_timestamps).Sorted
          (· ≤ ·) := by rw [hts]; exact hSort
      have hBound' : ∀ t ∈ old ++
          (evaluate cfg eng hist s now).engine.signal_timestamps, t ≤ now := by
        rw [hts]; exact hallnow
      have hOld2 : ∀ t ∈ old, t + 3600 ≤ now :=
        fun t ht => le_trans (hOld t ht) hln
      have hW' : ∀ T', windowCount T' (old ++
          (evaluate cfg eng hist s now).engine.signal_timestamps) ≤
          cfg.MAX_SIGNALS_PER_HOUR := by
        intro T'; rw [hts]; exact hW T'
      have := runEngine_window_inv cfg rest
        (evaluate cfg eng hist s now).engine
        (evaluate cfg eng hist s now).hist old now hsr hgr hSort' hBound'
        hOld2 hW' T
      rw [hts] at this
      exact this
    · -- not fired, timestamps pruned
      rw [runEngine_cons, hf]
      simp only [Bool.false_eq_true, if_false, List.nil_append]
      have hk : (evaluate cfg eng hist s now).engine.signal_timestamps = k := by
        rw [hts, pruneHour_eq, hfil]
      have hSort' : ((old ++ d) ++
          (evaluate cfg eng hist s now).engine.signal_timestamps).Sorted
          (· ≤ ·) := by rw [hk, ← hassoc]; exact hSort
      have hBound' : ∀ t ∈ (old ++ d) ++
          (evaluate cfg eng hist s now).engine.signal_timestamps, t ≤ now := by
        rw [hk, ← hassoc]; exact hallnow
      have hW' : ∀ T', windowCount T' ((old ++ d) ++
          (evaluate cfg eng hist s now).engine.signal_timestamps) ≤
          cfg.MAX_SIGNALS_PER_HOUR := by
        intro T'; rw [hk, ← hassoc]; exact hW T'
      have := runEngine_window_inv cfg rest
        (evaluate cfg eng hist s now).engine
        (evaluate cfg eng hist s now).hist (old ++ d) now hsr hgr hSort'
        hBound' hOld' hW' T
      rw [hk, ← hassoc] at this
      exact this
    · -- fired: timestamps pruned and appended, fire time recorded
      rw [runEngine_cons, hf, if_pos rfl]
      have hprunek : pruneHour eng.signal_timestamps now = k := by
        rw [pruneHour_eq, hfil]
      have hlen : k.length < cfg.MAX_SIGNALS_PER_HOUR := by
        rw [hprunek] at hlt; exact hlt
      have hk : (evaluate cfg eng hist s now).engine.signal_timestamps =
          k ++ [now] := by rw [hts, hprunek]
      have hsortfires : ((old ++ eng.signal_timestamps) ++ [now]).Sorted
          (· ≤ ·) := by
        refine List.pairwise_append.mpr ⟨hSort, by simp, ?_⟩
        intro a ha b hb
        rw [List.mem_singleton] at hb
        subst hb
        exact hallnow a ha
      have hassoc2 : (old ++ eng.signal_timestamps) ++ [now] =
          (old ++ d) ++ (k ++ [now]) := by
        rw [hassoc, List.append_assoc]
      have hSort' : ((old ++ d) ++
          (evaluate cfg eng hist s now).engine.signal_timestamps).Sorted
          (· ≤ ·) := by rw [hk, ← hassoc2]; exact hsortfires
      have hBound' : ∀ t ∈ (old ++ d) ++
          (evaluate cfg eng hist s now).engine.signal_timestamps, t ≤ now := by
        rw [hk, ← hassoc2]
        intro t ht
        rcases List.mem_append.mp ht with ht | ht
        · exact hallnow t ht
        · rw [List.mem_singleton] at ht
          exact le_of_eq ht
      have hW' : ∀ T', windowCount T' ((old ++ d) ++
          (evaluate cfg eng hist s now).engine.signal_timestamps) ≤
          cfg.MAX_SIGNALS_PER_HOUR := by
        intro T'
        rw [hk, ← hassoc2, windowCount_append_singleton]
        by_cases hc : T' - 3600 < now ∧ now ≤ T'
        · have hwle : windowCount T' (old ++ eng.signal_timestamps) ≤
              k.length := by
            rw [hassoc]
            exact windowCount_le_prune T' now hc.2 (old ++ d) k hOld' hkmem
          rw [if_pos hc]
          omega
        · rw [if_neg hc]
          have := hW T'
          omega
      have := runEngine_window_inv cfg rest
        (evaluate cfg eng hist s now).engine
        (evaluate cfg eng hist s now).hist (old ++ d) now hsr hgr hSort'
        hBound' hOld' hW' T
      rw [hk, ← hassoc2] at this
      rw [← List.append_assoc]
      exact this

/-- C7.  Hourly signal cap: starting from a fresh engine (empty timestamp
list), over any sequence of evaluate calls with non-decreasing clocks, the
number of fired signals whose fire time lies in any trailing 3600-second
window is at most MAX_SIGNALS_PER_HOUR; and evaluate never fires when the
timestamp list pruned to the trailing hour has already reached the cap. -/
theorem hourly_signal_cap :
    (∀ (cfg : Config) (calls : List (TokenState × ℚ)) (eng : SignalEngine)
        (hist : DeployerHistory),
      eng.signal_timestamps = [] →
      (calls.map Prod.snd).Sorted (· ≤ ·) →
      ∀ T, windowCount T (runEngine cfg calls eng hist).2.2 ≤
        cfg.MAX_SIGNALS_PER_HOUR) ∧
    (∀ (cfg : Config) (eng : SignalEngine) (hist : DeployerHistory)
        (s : TokenState) (now : ℚ),
      cfg.MAX_SIGNALS_PER_HOUR ≤
        (pruneHour eng.signal_timestamps now).length →
      (evaluate cfg eng hist s now).fired = false) := by
  constructor
  · intro cfg calls eng hist hts hsorted T
    cases calls with
    | nil => simp [runEngine, windowCount]
    | cons c rest =>
      have hsc : (∀ b ∈ rest.map Prod.snd, c.2 ≤ b) ∧
          (rest.map Prod.snd).Sorted (· ≤ ·) := List.sorted_cons.mp hsorted
      have hge : ∀ x ∈ c :: rest, c.2 ≤ x.2 := by
        intro x hx
        rcases List.mem_cons.mp hx with rfl | hx
        · exact le_refl _
        · exact hsc.1 x.2 (List.mem_map_of_mem Prod.snd hx)
      have hmain := runEngine_window_inv cfg (c :: rest) eng hist [] c.2
        hsorted hge (by rw [hts]; simp) (by rw [hts]; simp) (by simp)
        (by intro T'; rw [hts]; simp [windowCount]) T
      rw [hts] at hmain
      simpa using hmain
  · exact fun cfg eng hist s now h => evaluate_no_fire_at_cap cfg eng hist s
      now h

def c7state : TokenState :=
  { token_address := "0xc7c7c7c7c7c7c7c7c7c7c7c7c7c7c7c7c7c7c7c7",
    pair_address := "0xc7pool", first_seen := 0, dex_version := "v4" }

/-- C7 witness: a one-call trace from a fresh engine. -/
theorem hourly_signal_cap_witness :
    (({} : SignalEngine).signal_timestamps = []) ∧
    (([(c7state, 60)].map Prod.snd).Sorted (· ≤ ·)) ∧
    windowCount 60 (runEngine {} [(c7state, 60)] {} []).2.2 ≤
      ({} : Config).MAX_SIGNALS_PER_HOUR := by
  refine ⟨rfl, by simp, ?_⟩
  exact hourly_signal_cap.1 {} [(c7state, 60)] {} [] rfl (by simp) 60

/- ### C6: copycat rule 3 -/

lemma ccLoop_rule3 (s : TokenState) (q : ℚ) (a : String) (hq : q < 50000) :
    ∀ (l : List DsPair) (p : DsPair), p ∈ l →
      pyUpper p.baseSymbol = pyUpper s.token_symbol →
      pyLower p.baseAddress ≠ a →
      p.mcapOrFdv > 100000 →
      (ccLoop s q a l).is_copycat = true
  | [], p, hp, _, _, _ => absurd hp (List.not_mem_nil p)
  | x :: rest, p, hp, hsym, haddr, hmcap => by
    unfold ccLoop
    split_ifs with h1 h2 h3 h4 h5
    · rcases List.mem_cons.mp hp with rfl | hp
      · exact absurd hsym h1
      · exact ccLoop_rule3 s q a hq rest p hp hsym haddr hmcap
    · rcases List.mem_cons.mp hp with rfl | hp
      · exact absurd h2 haddr
      · exact ccLoop_rule3 s q a hq rest p hp hsym haddr hmcap
    · rfl
    · rfl
    · rfl
    · rcases List.mem_cons.mp hp with rfl | hp
      · exact absurd ⟨hmcap, hq⟩ h5
      · exact ccLoop_rule3 s q a hq rest p hp hsym haddr hmcap

/-- C6 (amended).  Copycat rule 3 sets the flag whenever some search
result has the same symbol (case-insensitive), a different address, and a
market cap above 100 000 USD while OUR PAIR'S LIQUIDITY (liquidity.usd of
the pair used for enrichment — not our market cap) is below 50 000 USD. -/
theorem copycat_rule3_liquidity (s : TokenState) (ourPair : DsPair)
    (results : List DsPair) (p : DsPair) (hp : p ∈ results)
    (hsym : pyUpper p.baseSymbol = pyUpper s.token_symbol)
    (haddr : pyLower p.baseAddress ≠ pyLower s.token_address)
    (hmcap : p.mcapOrFdv > 100000)
    (hliq : ourPair.liqUsd < 50000) :
    (check_copycat s ourPair results).is_copycat = true :=
  ccLoop_rule3 s ourPair.liqUsd (pyLower s.token_address) hliq results p hp
    hsym haddr hmcap

def c6tok : String := "0xc6c6c6c6c6c6c6c6c6c6c6c6c6c6c6c6c6c6c6c6"

def c6state : TokenState :=
  { token_address := c6tok, pair_address := "0xc6pool", first_seen := 0,
    dex_version := "v4", token_symbol := "DOGE", has_socials := true,
    ds_mcap := some 40000, ds_liquidity_usd := some 60000 }

/-- The search hit: an established token of the same symbol. -/
def c6pair : DsPair :=
  { baseAddress := "0xbbbbbbbbbbbbbbbbbbbbbbbbbbbbbbbbbbbbbbbb",
    baseSymbol := "doge", liquidityUsd := some 0,
    marketCap := some 200000, hasSocialsInfo := false }

/-- Our enrichment pair: 60 000 USD of liquidity. -/
def c6ourPair : DsPair :=
  { liquidityUsd := some 60000, marketCap := some 40000 }

/-- C6 counterexample: a token whose market cap (40 000) is below 50 000
while its pair liquidity is 60 000: the claim's rule-3 condition holds
(other mcap 200 000 > 100 000, our mcap < 50 000, same symbol, different
address), yet the code leaves `is_copycat` false because it compares the
pair's liquidity, not the market cap. -/
theorem copycat_rule3_counterexample :
    pyUpper c6pair.baseSymbol = pyUpper c6state.token_symbol ∧
    pyLower c6pair.baseAddress ≠ pyLower c6state.token_address ∧
    c6pair.mcapOrFdv > 100000 ∧
    c6state.best_mcap < 50000 ∧
    (check_copycat c6state c6ourPair [c6pair]).is_copycat = false := by
  have h1 : ¬ (pyUpper c6pair.baseSymbol ≠ pyUpper c6state.token_symbol) := by
    decide
  have h2 : ¬ (pyLower c6pair.baseAddress = pyLower c6state.token_address) := by
    decide
  have h3 : ¬ (c6ourPair.liqUsd > 0 ∧
      c6pair.liqUsd > c6ourPair.liqUsd * 10) := by
    norm_num [c6ourPair, c6pair, DsPair.liqUsd]
  have h4 : ¬ (c6pair.hasSocialsInfo = true ∧ c6state.has_socials = false ∧
      c6pair.liqUsd > c6ourPair.liqUsd * 2) := by
    norm_num [c6pair]
  have h5 : ¬ (c6pair.mcapOrFdv > 100000 ∧ c6ourPair.liqUsd < 50000) := by
    norm_num [c6ourPair, c6pair, DsPair.liqUsd, DsPair.mcapOrFdv, pyNumOr]
  refine ⟨by decide, by decide, ?_, ?_, ?_⟩
  · norm_num [c6pair, DsPair.mcapOrFdv, pyNumOr]
  · norm_num [c6state, TokenState.best_mcap]
  · unfold check_copycat ccLoop
    rw [if_neg h1, if_neg h2, if_neg h3, if_neg h4, if_neg h5]
    rfl

def c6wtok : String := "0xc6dcafec6dcafec6dcafec6dcafec6dcafec6dc"

def c6wstate : TokenState :=
  { token_address := c6wtok, pair_address := "0xc6wpool", first_seen := 0,
    dex_version := "v4", token_symbol := "PEPE", has_socials := true }

def c6wpair : DsPair :=
  { baseAddress := "0xdddddddddddddddddddddddddddddddddddddddd",
    baseSymbol := "pepe", marketCap := some 200000 }

def c6wour : DsPair := { liquidityUsd := some 5000 }

/-- C6 witness: a low-liquidity token flagged by rule 3. -/
theorem copycat_rule3_liquidity_witness :
    c6wpair ∈ [c6wpair] ∧
    pyUpper c6wpair.baseSymbol = pyUpper c6wstate.token_symbol ∧
    pyLower c6wpair.baseAddress ≠ pyLower c6wstate.token_address ∧
    c6wpair.mcapOrFdv > 100000 ∧
    c6wour.liqUsd < 50000 ∧
    (check_copycat c6wstate c6wour [c6wpair]).is_copycat = true := by
  have hm : c6wpair.mcapOrFdv > 100000 := by
    norm_num [c6wpair, DsPair.mcapOrFdv, pyNumOr]
  have hl : c6wour.liqUsd < 50000 := by
    norm_num [c6wour, DsPair.liqUsd]
  refine ⟨List.mem_singleton.mpr rfl, by decide, by decide, hm, hl, ?_⟩
  exact copycat_rule3_liquidity c6wstate c6wour [c6wpair] c6wpair
    (List.mem_singleton.mpr rfl) (by decide) (by decide) hm hl

/- ### C8: swap-handler map cleanup -/

/-- C8 (amended).  On a swap whose pool is unknown, or whose token is
missing from the store or already signaled, both handlers drop the event
without recording a buy or a sell — but only the Venue-B (V3) handler
removes the pool from `pool_to_token` and `_tracked_pools`; the Venue-A
(V4) handler leaves `pool_id_to_token` untouched. -/
theorem swap_drop_map_cleanup :
    (∀ (cfg : Config) (pool_map : List (String × String × Bool))
        (tr : TokenStateTracker) (eng : SignalEngine)
        (hist : DeployerHistory) (whale : List WhaleAlert) (log : SwapLog)
        (p now : ℚ),
      alookup pool_map log.poolKey = none →
      v4HandleSwap cfg pool_map tr eng hist whale log p now =
        ⟨pool_map, tr, eng, hist, whale⟩) ∧
    (∀ (cfg : Config) (pool_map : List (String × String × Bool))
        (tr : TokenStateTracker) (eng : SignalEngine)
        (hist : DeployerHistory) (whale : List WhaleAlert) (log : SwapLog)
        (p now : ℚ) (token : String) (ethIs0 : Bool),
      alookup pool_map log.poolKey = some (token, ethIs0) →
      ((tr.get token now).1 = none ∨
       ∃ st, (tr.get token now).1 = some st ∧ st.signaled = true) →
      v4HandleSwap cfg pool_map tr eng hist whale log p now =
        ⟨pool_map, (tr.get token now).2, eng, hist, whale⟩) ∧
    (∀ (cfg : Config) (pool_map : List (String × String × Bool))
        (tracked : List String) (tr : TokenStateTracker)
        (eng : SignalEngine) (hist : DeployerHistory)
        (whale : List WhaleAlert) (log : SwapLog) (p now : ℚ)
        (token : String) (ethIs0 : Bool),
      alookup pool_map log.poolKey = some (token, ethIs0) →
      ((tr.get token now).1 = none ∨
       ∃ st, (tr.get token now).1 = some st ∧ st.signaled = true) →
      v3HandleSwap cfg pool_map tracked tr eng hist whale log p now =
        ⟨aerase pool_map log.poolKey, tracked.erase log.poolKey,
         (tr.get token now).2, eng, hist, whale⟩) := by
  refine ⟨?_, ?_, ?_⟩
  · intro cfg pool_map tr eng hist whale log p now h
    simp only [v4HandleSwap, h]
  · intro cfg pool_map tr eng hist whale log p now token ethIs0 h hcase
    rcases hcase with hnone | ⟨st, hst, hsig⟩
    · simp only [v4HandleSwap, h, hnone]
    · simp only [v4HandleSwap, h, hst, hsig, if_true]
  · intro cfg pool_map tracked tr eng hist whale log p now token ethIs0 h
      hcase
    rcases hcase with hnone | ⟨st, hst, hsig⟩
    · simp only [v3HandleSwap, h, hnone]
    · simp only [v3HandleSwap, h, hst, hsig, if_true]

def c8pool : String := "0xc8c8c8c8c8c8c8c8c8c8c8c8c8c8c8c8c8c8c8c8c8c8c8c8"

def c8tok : String := "0xc8tokenc8tokenc8tokenc8tokenc8tokenc8to"

def c8state : TokenState :=
  { token_address := c8tok, pair_address := c8pool, first_seen := 0,
    dex_version := "v4", signaled := true }

def c8tr : TokenStateTracker := { states := [(c8tok, c8state)] }

def c8map : List (String × String × Bool) := [(c8pool, (c8tok, true))]

def c8log : SwapLog :=
  { poolKey := c8pool, sender := "0xc8sender", amount0 := 1, amount1 := -1,
    sqrtPriceX96 := 1, liquidity := 1, tick := 0 }

/-- C8 counterexample: a V4 swap for an already-signaled token is dropped,
but the poolId entry is NOT removed from the listener's map, contradicting
the claim. -/
theorem v4_swap_drop_counterexample :
    alookup c8map c8log.poolKey = some (c8tok, true) ∧
    (c8tr.get c8tok 10).1 = some c8state ∧
    c8state.signaled = true ∧
    (v4HandleSwap {} c8map c8tr {} [] [] c8log 3000 10).pool_map = c8map ∧
    alookup (v4HandleSwap {} c8map c8tr {} [] [] c8log 3000 10).pool_map
      c8log.poolKey = some (c8tok, true) := by
  have hget : (c8tr.get c8tok 10).1 = some c8state := by
    simp [TokenStateTracker.get, c8tr, alookup, pyLower, c8tok, c8state]
    norm_num
  have hdrop : v4HandleSwap {} c8map c8tr {} [] [] c8log 3000 10 =
      ⟨c8map, (c8tr.get c8tok 10).2, {}, [], []⟩ := by
    have hlook : alookup c8map c8log.poolKey = some (c8tok, true) := rfl
    have hsig : c8state.signaled = true := rfl
    simp only [v4HandleSwap, hlook, hget, hsig, if_true]
  refine ⟨rfl, hget, rfl, ?_, ?_⟩
  · rw [hdrop]
  · rw [hdrop]
    rfl

/-- C8 witness: the same scenario through the amended theorem, showing the
V3 handler does remove the entry. -/
theorem swap_drop_map_cleanup_witness :
    alookup c8map c8log.poolKey = some (c8tok, true) ∧
    c8state.signaled = true ∧
    v3HandleSwap {} c8map [c8pool] c8tr {} [] [] c8log 3000 10 =
      ⟨aerase c8map c8log.poolKey, [c8pool].erase c8log.poolKey,
       (c8tr.get c8tok 10).2, {}, [], []⟩ := by
  have hget : (c8tr.get c8tok 10).1 = some c8state := by
    simp [TokenStateTracker.get, c8tr, alookup, pyLower, c8tok, c8state]
    norm_num
  exact ⟨rfl, rfl, swap_drop_map_cleanup.2.2 {} c8map [c8pool] c8tr {} [] []
    c8log 3000 10 c8tok true rfl (Or.inr ⟨c8state, hget, rfl⟩)⟩

/- ### C9: rolling buy-timestamp window -/

/-- C9 (amended).  Immediately after a successful `record_buy` at time
`now`, every timestamp in the returned state's rolling list satisfies
`now - t < 60` (hence within the last 60 s); between mutations the list is
NOT re-trimmed, so entries may be older when observed later. -/
theorem record_buy_trims_window (tr : TokenStateTracker)
    (token buyer : String) (usd now : ℚ) (s' : TokenState)
    (h : (tr.record_buy token buyer usd now).1 = some s') :
    ∀ t ∈ s'.recent_buy_times, now - t < 60 := by
  unfold TokenStateTracker.record_buy at h
  rcases hget : tr.get token now with ⟨stOpt, tr2⟩
  rw [hget] at h
  cases stOpt with
  | none => simp at h
  | some st =>
    simp only [Option.some.injEq] at h
    subst h
    intro t ht
    unfold recordBuyState at ht
    simp only [List.mem_filter, decide_eq_true_eq] at ht
    linarith [ht.2]

def c9tok : String := "0xc9tokenc9tokenc9tokenc9tokenc9tokenc9to"

def c9buyer : String := "0xc9buyer"

def c9base : TokenState :=
  { token_address := c9tok, pair_address := "0xc9pool", first_seen := 0,
    dex_version := "v4" }

def c9tr1 : TokenStateTracker := { states := [(c9tok, c9base)] }

def c9postBuy : TokenState := recordBuyState c9base c9buyer 5 0

def c9tr2 : TokenStateTracker := (c9tr1.record_buy c9tok c9buyer 5 0).2

/-- C9 counterexample: a buy recorded at time 0 leaves timestamp 0 in the
rolling list; observing the same state through the store at time 100
(within the 300 s TTL) still shows that timestamp, and 100 - 0 ≤ 60 is
false — the list is only trimmed inside `record_buy`, so the claimed
every-observation invariant fails. -/
theorem recent_buy_window_counterexample :
    ((c9tr2.get c9tok 100).1.map (fun s => s.recent_buy_times)) =
      some [0] ∧
    ¬ ((100 : ℚ) - 0 ≤ 60) := by
  have hl : pyLower c9tok = c9tok := by decide
  constructor
  · norm_num [c9tr2, c9tr1, TokenStateTracker.record_buy,
      TokenStateTracker.get, alookup, aset, hl, c9base,
      recordBuyState, setInsert]
  · norm_num

/-- C9 witness: the amended trimming property at a concrete buy. -/
theorem record_buy_trims_window_witness :
    ((c9tr1.record_buy c9tok c9buyer 5 0).1 = some c9postBuy) ∧
    (0 : ℚ) ∈ c9postBuy.recent_buy_times ∧ (0 : ℚ) - 0 < 60 := by
  have hl : pyLower c9tok = c9tok := by decide
  have h : (c9tr1.record_buy c9tok c9buyer 5 0).1 = some c9postBuy := by
    norm_num [c9tr1, TokenStateTracker.record_buy, TokenStateTracker.get,
      alookup, hl, c9base, c9postBuy]
  have hmem : (0 : ℚ) ∈ c9postBuy.recent_buy_times := by
    simp [c9postBuy, recordBuyState, c9base]
  exact ⟨h, hmem,
    record_buy_trims_window c9tr1 c9tok c9buyer 5 0 c9postBuy h 0 hmem⟩

end Basebot
